import Mathlib

/-!
Verification of the ETL normalization and load pipeline of the
meteorologia-sao-luiz repository.

The development shallowly embeds the core of `scripts/etl_local.py`
(`clean_and_transform`) and `scripts/database.py` (`ETLDB.insert_data`):

* header normalization and the fixed column-mapping table
  (`etl_local.py` lines 87-133);
* per-cell numeric coercion as performed by `pd.read_csv` with
  `decimal=","` and the `na_values` list, followed by
  `pd.to_numeric(errors='coerce')` (lines 50-57 and 145-147);
* the row pipeline: per-file `dropna(subset=['data','hora'])`, `pd.concat`,
  `drop_duplicates(subset=["data","hora"], keep="last")`, `dropna`,
  `sort_values(["data","hora"])` (lines 151-176);
* the feature augmentation `groupby("data").diff().fillna(0)`,
  `.diff(3).fillna(0)` and `rolling(6, min_periods=1).mean()` followed by
  `.fillna(0)` (lines 178-183);
* the batched upsert `INSERT ... ON CONFLICT (data, hora) DO UPDATE SET`
  of `ETLDB.insert_data`, with its surrounding null-key filtering and its
  `except Exception: rollback; return False` error handling (database.py
  lines 84-196).

Dates are modelled as `Option Nat` (ordinal day, `none` = NaT), times of
day as `Option Nat` (minutes, `none` = NaT) and measurement cells as
`Option Rat` (`none` = NaN).  Floating-point rounding is immaterial to the
claims checked here, so measurements are rationals.
-/

/-- One observation row, with exactly the canonical columns of
`relevant_cols` in `etl_local.py` (lines 121-125).  `none` models a
missing value (NaT/NaN). -/
structure Row where
  data : Option Nat
  hora : Option Nat
  precipitacao_total : Option ℚ
  pressao_atm_estacao : Option ℚ
  temperatura_ar : Option ℚ
  umidade_relativa : Option ℚ
  vento_velocidade : Option ℚ
  vento_direcao : Option ℚ
  radiacao_global : Option ℚ
  temperatura_max : Option ℚ
  temperatura_min : Option ℚ
deriving DecidableEq, Inhabited

/-! ### Header normalization (`etl_local.py` lines 87-119)

`df.columns = df.columns.str.strip().str.lower().str.replace(" ", "_")`
followed by renaming through `column_mapping`. -/

/-- Python `str.lower()` restricted to the characters occurring in the raw
INMET headers: ASCII letters plus the accented uppercase letters of the
Portuguese header dialect. -/
def lowerChar (c : Char) : Char :=
  if c = 'Ç' then 'ç'
  else if c = 'Ã' then 'ã'
  else if c = 'Á' then 'á'
  else if c = 'Â' then 'â'
  else if c = 'É' then 'é'
  else if c = 'Ê' then 'ê'
  else if c = 'Í' then 'í'
  else if c = 'Ó' then 'ó'
  else if c = 'Õ' then 'õ'
  else if c = 'Ú' then 'ú'
  else c.toLower

/-- Python `str.strip()`: drop leading and trailing whitespace. -/
def stripChars (cs : List Char) : List Char :=
  ((cs.dropWhile Char.isWhitespace).reverse.dropWhile Char.isWhitespace).reverse

/-- `header.strip().lower().replace(" ", "_")` (`etl_local.py` line 87);
the pattern of the replacement is the single character `' '`, so it is a
character map. -/
def normalizeHeader (s : String) : String :=
  String.mk (((stripChars s.toList).map lowerChar).map (fun c => if c = ' ' then '_' else c))

/-- The fixed `column_mapping` dictionary (`etl_local.py` lines 90-111). -/
def columnMapping : List (String × String) :=
  [("data", "data"),
   ("hora", "hora"),
   ("precipitação_total", "precipitacao_total"),
   ("precipitacao_total", "precipitacao_total"),
   ("pressao_atmosferica_ao_nivel_da_estacao,_horaria_(mb)", "pressao_atm_estacao"),
   ("pressao_atm_estacao", "pressao_atm_estacao"),
   ("radiacao_global_(kj/m²)", "radiacao_global"),
   ("radiacao_global", "radiacao_global"),
   ("temperatura_do_ar_(°c)", "temperatura_ar"),
   ("temperatura_ar", "temperatura_ar"),
   ("umidade_relativa_do_ar,_horaria_(%)", "umidade_relativa"),
   ("umidade_relativa", "umidade_relativa"),
   ("vento_-_velocidade_horaria_(m/s)", "vento_velocidade"),
   ("vento_velocidade", "vento_velocidade"),
   ("vento_-_direção_horaria_(gr)", "vento_direcao"),
   ("vento_direcao", "vento_direcao"),
   ("temperatura_máxima_na_hora_ant._(°c)", "temperatura_max"),
   ("temperatura_max", "temperatura_max"),
   ("temperatura_mínima_na_hora_ant._(°c)", "temperatura_min"),
   ("temperatura_min", "temperatura_min")]

/-- Renaming through `column_mapping`: a normalized header present in the
table is mapped to its canonical name, any other header passes through
unchanged (`etl_local.py` lines 113-118). -/
def mapColumn (s : String) : String :=
  match columnMapping.lookup s with
  | some c => c
  | none => s

/-- The canonical column name produced for one raw header cell:
normalization followed by the mapping table. -/
def canonicalName (h : String) : String := mapColumn (normalizeHeader h)

/-- Canonical names of a whole raw header row. -/
def canonicalColumns (headers : List String) : List String :=
  headers.map canonicalName

/-- `relevant_cols` (`etl_local.py` lines 121-125). -/
def relevantCols : List String :=
  ["data", "hora", "precipitacao_total", "pressao_atm_estacao",
   "temperatura_ar", "umidade_relativa", "vento_velocidade",
   "vento_direcao", "radiacao_global", "temperatura_max", "temperatura_min"]

/-- `available_cols = [col for col in relevant_cols if col in df.columns]`
(`etl_local.py` line 127). -/
def availableCols (cols : List String) : List String :=
  relevantCols.filter (fun c => cols.contains c)

/-- The per-file acceptance test of `etl_local.py` lines 130-133: after
normalization, mapping and restriction to the relevant columns, both
`data` and `hora` must be present, otherwise the file is skipped. -/
def fileAccepted (headers : List String) : Bool :=
  (availableCols (canonicalColumns headers)).contains "data" &&
    (availableCols (canonicalColumns headers)).contains "hora"

/-! ### Cell-level numeric coercion (`etl_local.py` lines 50-57, 145-147)

`pd.read_csv(..., decimal=",", na_values=["", " ", "null", "NaN", "null",
"NULL"])` parses each cell of a numeric column; `pd.to_numeric(...,
errors='coerce')` then coerces what is left. -/

/-- Numeric value of a decimal digit. -/
def digitVal (c : Char) : Nat := c.toNat - '0'.toNat

/-- A nonempty all-digit character list. -/
def isDigits (cs : List Char) : Bool := !cs.isEmpty && cs.all (fun c => c.isDigit)

/-- The natural number denoted by a digit list. -/
def natOfDigits (cs : List Char) : Nat :=
  cs.foldl (fun n c => 10 * n + digitVal c) 0

/-- Parse an unsigned decimal numeral whose decimal separator is `sep`
(`digits` or `digits sep digits`), as a numerator/denominator pair. -/
def parseUnsignedWith (sep : Char) (cs : List Char) : Option (Nat × Nat) :=
  let intPart := cs.takeWhile (fun c => c != sep)
  let rest := cs.dropWhile (fun c => c != sep)
  match rest with
  | [] => if isDigits intPart then some (natOfDigits intPart, 1) else none
  | _ :: frac =>
      if isDigits intPart && isDigits frac && !frac.contains sep then
        some (natOfDigits intPart * 10 ^ frac.length + natOfDigits frac, 10 ^ frac.length)
      else none

/-- Parse a signed decimal numeral whose decimal separator is `sep`. -/
def parseNumWith (sep : Char) (s : String) : Option ℚ :=
  match s.toList with
  | '-' :: rest => (parseUnsignedWith sep rest).map (fun p => mkRat (-(p.1 : Int)) p.2)
  | '+' :: rest => (parseUnsignedWith sep rest).map (fun p => mkRat (p.1 : Int) p.2)
  | cs => (parseUnsignedWith sep cs).map (fun p => mkRat (p.1 : Int) p.2)

/-- The explicit `na_values` list passed to `pd.read_csv`
(`etl_local.py` line 56). -/
def customNA : List String := ["", " ", "null", "NaN", "null", "NULL"]

/-- The default NA sentinels of `pd.read_csv`, which remain active because
`keep_default_na` is left at `True`. -/
def defaultNA : List String :=
  ["", "#N/A", "#N/A N/A", "#NA", "-1.#IND", "-1.#QNAN", "-NaN", "-nan",
   "1.#IND", "1.#QNAN", "<NA>", "N/A", "NA", "NULL", "NaN", "None",
   "n/a", "nan", "null"]

/-- Is the raw cell one of the recognized NA literals? -/
def isNA (s : String) : Bool := (customNA ++ defaultNA).contains s

/-- What `pd.read_csv` leaves in one cell of a measurement column: a
missing value, a number (parsed with decimal comma), or the raw text. -/
inductive CellVal where
  | na : CellVal
  | num : ℚ → CellVal
  | txt : String → CellVal
deriving DecidableEq

/-- `pd.read_csv` on one raw cell with `decimal=","` and the combined
NA-value list. -/
def readCell (s : String) : CellVal :=
  if isNA s then .na
  else
    match parseNumWith ',' s with
    | some q => .num q
    | none => .txt s

/-- `pd.to_numeric(errors='coerce')` on one cell: missing stays missing,
numbers stay numbers, and leftover text is re-parsed with the *period* as
decimal separator (a decimal comma is not understood here), unparsable
text becoming missing. -/
def toNumericCoerce (v : CellVal) : Option ℚ :=
  match v with
  | .na => none
  | .num q => some q
  | .txt s => parseNumWith '.' s

/-- The end-to-end fate of one raw cell of a measurement column through
`read_csv` and `to_numeric` (`etl_local.py` lines 50-57 and 145-147). -/
def coerceCell (s : String) : Option ℚ := toNumericCoerce (readCell s)

/-! ### Row pipeline (`etl_local.py` lines 151-183)

Per-file `dropna(subset=['data','hora'])`, concatenation, keep-last
deduplication on the `(data, hora)` key, a second `dropna`, and the
ascending sort by `(data, hora)`. -/

/-- Both key components parsed successfully (`dropna(subset=['data','hora'])`
keeps exactly these rows). -/
def validKey (r : Row) : Bool := r.data.isSome && r.hora.isSome

/-- The per-file cleaning step `df.dropna(subset=['data', 'hora'])`
(`etl_local.py` line 152). -/
def cleanFile (rows : List Row) : List Row := rows.filter validKey

/-- A raw file after reading: its (already normalized-and-mapped, see
`canonicalColumns`) header row and its parsed data rows. -/
structure RawFile where
  headers : List String
  rows : List Row
deriving DecidableEq

/-- Per-file processing: a file whose columns lack `data` or `hora` after
normalization and mapping is skipped (`continue`, lines 130-133); an
accepted file contributes its rows with null-key rows dropped (line 152). -/
def processFile (f : RawFile) : Option (List Row) :=
  if fileAccepted f.headers then some (cleanFile f.rows) else none

/-- `pd.concat(dfs)`: the concatenation of every successfully processed
file's cleaned frame, in file-processing order (lines 38-170). -/
def combineFiles (fs : List RawFile) : List Row :=
  (fs.filterMap processFile).flatten

/-- The `(data, hora)` natural key of a row. -/
def keyOf (r : Row) : Option Nat × Option Nat := (r.data, r.hora)

/-- `drop_duplicates(subset=["data","hora"], keep="last")` (line 172): a
row survives exactly when no later row carries the same key; survivors
keep their relative order. -/
def dedupLast : List Row → List Row
  | [] => []
  | r :: rs =>
      if rs.any (fun s => keyOf s = keyOf r) then dedupLast rs
      else r :: dedupLast rs

/-- The ascending `(data, hora)` order used by
`sort_values(["data","hora"])`: lexicographic on the key, with `none`
read as 0 (after the preceding `dropna` no `none` key component remains). -/
def keyLeB (r s : Row) : Bool :=
  (r.data.getD 0 < s.data.getD 0) ||
    (r.data.getD 0 = s.data.getD 0 && r.hora.getD 0 ≤ s.hora.getD 0)

/-- The ascending key order as a relation on rows. -/
def keyLeP (r s : Row) : Prop := keyLeB r s = true

instance : DecidableRel keyLeP :=
  fun r s => inferInstanceAs (Decidable (keyLeB r s = true))

instance : IsTotal Row keyLeP :=
  ⟨by
    intro a b
    simp only [keyLeP, keyLeB, Bool.or_eq_true, Bool.and_eq_true, decide_eq_true_eq]
    omega⟩

instance : IsTrans Row keyLeP :=
  ⟨by
    intro a b c
    simp only [keyLeP, keyLeB, Bool.or_eq_true, Bool.and_eq_true, decide_eq_true_eq]
    omega⟩

/-- `combined_df.sort_values(["data", "hora"])` (line 176): the series
rearranged into ascending `(data, hora)` order. -/
def sortByKey (l : List Row) : List Row := List.insertionSort keyLeP l

/-- The combined series right before feature augmentation: concatenation,
keep-last deduplication, the second `dropna(subset=['data','hora'])`
(line 174) and the ascending sort (lines 169-176). -/
def pipelineRows (fs : List RawFile) : List Row :=
  sortByKey ((dedupLast (combineFiles fs)).filter validKey)

/-! ### Feature augmentation (`etl_local.py` lines 178-183)

`groupby("data")` groups rows by their `data` value keeping list order
inside each group; `diff(k)` subtracts the value `k` positions earlier in
the same group (NaN when absent or when either operand is NaN);
`rolling(6, min_periods=1).mean()` averages the non-NaN values among the
up-to-6 trailing samples of the group (NaN when the window holds no
observation); `.fillna(0)` then replaces every NaN by 0. -/

/-- The column values of the rows up to and including position `i` that
belong to the same `data` group as row `i`, in order: the group history
`pandas` exposes to `diff`/`rolling` at row `i`. -/
def groupHist (col : Row → Option ℚ) (l : List Row) (i : Nat) : List (Option ℚ) :=
  ((l.take (i + 1)).filter (fun r => r.data = (l.getD i default).data)).map col

/-- `Series.diff(k)` at the end of the group history `vs`: the last value
minus the value `k` positions before it, NaN when the history is too
short or when either operand is NaN. -/
def lagDiff (k : Nat) (vs : List (Option ℚ)) : Option ℚ :=
  if vs.length ≤ k then none
  else
    match vs.getLast?.join, (vs.get? (vs.length - 1 - k)).join with
    | some a, some b => some (a - b)
    | _, _ => none

/-- `Series.rolling(w, min_periods=1).mean()` at the end of the group
history `vs`: the mean of the non-NaN values among the last `w` entries,
NaN when none of them is an observation. -/
def rollMean (w : Nat) (vs : List (Option ℚ)) : Option ℚ :=
  let window := vs.drop (vs.length - w)
  let obs := window.filterMap id
  if obs.isEmpty then none else some (obs.sum / (obs.length : ℚ))

/-- `.fillna(0)` on one cell. -/
def fillna0 (v : Option ℚ) : Option ℚ := some (v.getD 0)

/-- A row of the augmented frame: the observation row plus the three
derived columns.  The derived columns are `Option ℚ` so that "the derived
value is never missing" is a provable property of the pipeline rather
than a typing artifact. -/
structure AugRow where
  row : Row
  pressure_change : Option ℚ
  temp_change_3h : Option ℚ
  humidity_trend : Option ℚ
deriving DecidableEq, Inhabited

/-- The augmented row built at position `i` (`etl_local.py` lines
178-183). -/
def augAt (l : List Row) (i : Nat) : AugRow :=
  { row := l.getD i default
    pressure_change := fillna0 (lagDiff 1 (groupHist Row.pressao_atm_estacao l i))
    temp_change_3h := fillna0 (lagDiff 3 (groupHist Row.temperatura_ar l i))
    humidity_trend := fillna0 (rollMean 6 (groupHist Row.umidade_relativa l i)) }

/-- The Feature Augmenter: every row of the series, augmented with
`pressure_change`, `temp_change_3h` and `humidity_trend`. -/
def augment (l : List Row) : List AugRow :=
  (List.range l.length).map (augAt l)

/-- The full transform: combined, deduplicated, sorted, augmented. -/
def pipelineAug (fs : List RawFile) : List AugRow :=
  augment (pipelineRows fs)

/-- The rows handed to the database write: the canonical columns of the
combined frame after `replace({NaT: None, nan: None})` and the final
`dropna(subset=['data','hora'])` (`etl_local.py` lines 189-195). -/
def dbInput (fs : List RawFile) : List Row :=
  (pipelineRows fs).filter validKey

/-! ### The relational store and `ETLDB.insert_data` (`database.py`) -/

/-- The observable state of the `meteo_data` table: what row, if any, is
stored under each `(data, hora)` primary key. -/
def Store := Nat × Nat → Option Row

/-- The `(data, hora)` primary-key value of a row as persisted (after the
`dropna`, both components are present; `getD 0` is never exercised on a
null component). -/
def keyN (r : Row) : Nat × Nat := (r.data.getD 0, r.hora.getD 0)

/-- The effect of upserting one row: `INSERT ... ON CONFLICT (data, hora)
DO UPDATE SET c = EXCLUDED.c` for every non-key column `c` — insert if the
key is absent, else overwrite every non-key column with the incoming
value, nulls included (database.py lines 146-157). -/
def upsertRow (s : Store) (r : Row) : Store :=
  fun k => if k = keyN r then some r else s k

/-- `psycopg2.extras.execute_values` on the upsert statement: every row
applied in order, or a raised database error (connectivity/authorization
failure, modelled by `conn = false`). -/
def execValues (conn : Bool) (s : Store) (rows : List Row) : Except Unit Store :=
  if conn then Except.ok (rows.foldl upsertRow s) else Except.error ()

/-- `ETLDB.insert_data` (database.py lines 84-196): an empty frame returns
`False`; rows with a null `data` or `hora` are dropped; an empty remainder
returns `False`; otherwise the batched upsert runs and `True` is returned
on commit, while a raised database error is caught, the transaction rolled
back, and `False` returned.  The `Except` layer records whether the call
itself propagates an exception: by construction it never does. -/
def insertData (conn : Bool) (s : Store) (rows : List Row) : Except Unit (Bool × Store) :=
  if rows.isEmpty then Except.ok (false, s)
  else if (rows.filter validKey).isEmpty then Except.ok (false, s)
  else
    match execValues conn s (rows.filter validKey) with
    | Except.ok s2 => Except.ok (true, s2)
    | Except.error _ => Except.ok (false, s)

/-- The store state observable after one `insert_data` call (the
rolled-back original store on failure). -/
def storeAfter (conn : Bool) (s : Store) (rows : List Row) : Store :=
  match insertData conn s rows with
  | Except.ok (_, s2) => s2
  | Except.error _ => s

/-- `ETLDB.__init__` (database.py lines 50-61): a missing `NEON_DB_URL`
raises `ValueError`, and a failed `psycopg2.connect` is logged and
re-raised — connection-setup failures surface to the caller. -/
def etldbInit (envUrl : Option String) (connectOk : Bool) : Except Unit Unit :=
  match envUrl with
  | none => Except.error ()
  | some _ => if connectOk then Except.ok () else Except.error ()

/-! ### Specification-side formulations used by the theorems -/

/-- The trailing within-date humidity history of a row that sits after the
prefix `l1` of the series: the humidity values of the same-date rows of
`l1` in order, followed by the row's own humidity. -/
def humidityHist (l1 : List Row) (ri : Row) : List (Option ℚ) :=
  ((l1.filter (fun r => r.data = ri.data)).map Row.umidade_relativa) ++ [ri.umidade_relativa]

/-- The non-missing samples among the up-to-6 trailing entries of a
history: the observations a width-6, `min_periods=1` rolling mean
averages. -/
def windowObs (vs : List (Option ℚ)) : List ℚ :=
  (vs.drop (vs.length - 6)).filterMap id

/-! ### Concrete fixtures for witnesses and counterexamples -/

/-- A fully populated observation row. -/
def rowA : Row :=
  { data := some 1, hora := some 10, precipitacao_total := some 0,
    pressao_atm_estacao := some 1000, temperatura_ar := some 25,
    umidade_relativa := some 80, vento_velocidade := some 2,
    vento_direcao := some 90, radiacao_global := some 100,
    temperatura_max := some 26, temperatura_min := some 24 }

/-- A second row with the same key as `rowA` but another temperature. -/
def rowB : Row :=
  { rowA with temperatura_ar := some 30 }

/-- A row at a later key on the same date. -/
def rowC : Row :=
  { rowA with hora := some 20, pressao_atm_estacao := some 994 }

/-- A row whose `hora` failed to parse (dropped by every `dropna`). -/
def rowBadHora : Row :=
  { rowA with hora := none }

/-- A row with every measurement missing. -/
def rowEmptyMeas : Row :=
  { data := some 2, hora := some 0, precipitacao_total := none,
    pressao_atm_estacao := none, temperatura_ar := none,
    umidade_relativa := none, vento_velocidade := none,
    vento_direcao := none, radiacao_global := none,
    temperatura_max := none, temperatura_min := none }

/-- A raw file carrying the full-dialect headers. -/
def fileFull : RawFile :=
  { headers := canonicalColumns ["Data", "Hora", "Temperatura do Ar (°C)"],
    rows := [rowA, rowBadHora] }

/-- A raw file carrying the short-dialect headers and a duplicate key. -/
def fileShort : RawFile :=
  { headers := canonicalColumns ["data", "hora", "temperatura_ar"],
    rows := [rowB, rowC] }

/-- A raw file with no `data`/`hora` columns at all. -/
def fileNoKey : RawFile :=
  { headers := canonicalColumns ["temperatura_ar", "umidade_relativa"],
    rows := [rowA] }

/-- The empty store. -/
def dbEmpty : Store := fun _ => none

/-! ### Helper lemmas about positions, prefixes and group histories -/

theorem augment_getD (l : List Row) (i : Nat) (h : i < l.length) :
    (augment l).getD i default = augAt l i := by
  unfold augment
  rw [List.getD_eq_getElem?_getD, List.getElem?_map, List.getElem?_range h]
  rfl

theorem getD_append_self (l1 l3 : List Row) (r d : Row) :
    (l1 ++ r :: l3).getD l1.length d = r := by
  rw [List.getD_eq_getElem?_getD, List.getElem?_append_right (le_refl l1.length)]
  simp

theorem getD_append_mid (l1 l2 l3 : List Row) (rj ri d : Row) :
    (l1 ++ rj :: (l2 ++ ri :: l3)).getD (l1.length + 1 + l2.length) d = ri := by
  rw [List.getD_eq_getElem?_getD, List.getElem?_append_right (by omega)]
  have h1 : l1.length + 1 + l2.length - l1.length = l2.length + 1 := by omega
  rw [h1, List.getElem?_cons_succ, List.getElem?_append_right (le_refl l2.length)]
  simp

theorem take_append_one {α : Type} (l1 l3 : List α) (r : α) :
    (l1 ++ r :: l3).take (l1.length + 1) = l1 ++ [r] := by
  rw [List.take_append_eq_append_take]
  congr 1
  · exact List.take_of_length_le (by omega)
  · have h : l1.length + 1 - l1.length = 1 := by omega
    rw [h]
    rfl

theorem take_append_two {α : Type} (l1 l2 l3 : List α) (rj ri : α) :
    (l1 ++ rj :: (l2 ++ ri :: l3)).take (l1.length + 1 + l2.length + 1) =
      l1 ++ rj :: (l2 ++ [ri]) := by
  rw [List.take_append_eq_append_take]
  congr 1
  · exact List.take_of_length_le (by omega)
  · have h : l1.length + 1 + l2.length + 1 - l1.length = l2.length + 1 + 1 := by omega
    rw [h, List.take_succ_cons]
    congr 1
    rw [List.take_append_eq_append_take]
    congr 1
    · exact List.take_of_length_le (by omega)
    · have h2 : l2.length + 1 - l2.length = 1 := by omega
      rw [h2]
      rfl

theorem groupHist_first (col : Row → Option ℚ) (l1 l3 : List Row) (ri : Row) :
    groupHist col (l1 ++ ri :: l3) l1.length =
      ((l1.filter (fun r => r.data = ri.data)).map col) ++ [col ri] := by
  unfold groupHist
  rw [getD_append_self, take_append_one, List.filter_append, List.map_append]
  congr 1
  simp

theorem groupHist_mid (col : Row → Option ℚ) (l1 l2 l3 : List Row) (rj ri : Row)
    (hj : rj.data = ri.data) (hmid : ∀ r ∈ l2, ¬ r.data = ri.data) :
    groupHist col (l1 ++ rj :: (l2 ++ ri :: l3)) (l1.length + 1 + l2.length) =
      ((l1.filter (fun r => r.data = ri.data)).map col) ++ [col rj, col ri] := by
  unfold groupHist
  rw [getD_append_mid]
  rw [show l1.length + 1 + l2.length + 1 = l1.length + 1 + l2.length + 1 from rfl]
  rw [take_append_two, List.filter_append, List.map_append]
  congr 1
  rw [List.filter_cons_of_pos (by simp [hj])]
  have h2 : l2.filter (fun r => decide (r.data = ri.data)) = [] := by
    rw [List.filter_eq_nil_iff]
    intro r hr
    simpa using hmid r hr
  rw [List.filter_append, h2]
  simp

theorem lagDiff_of_short (k : Nat) (vs : List (Option ℚ)) (h : vs.length ≤ k) :
    lagDiff k vs = none := by
  unfold lagDiff
  rw [if_pos h]

theorem lagDiff_one_last_two (ws : List (Option ℚ)) (a b : ℚ) :
    lagDiff 1 (ws ++ [some b, some a]) = some (a - b) := by
  unfold lagDiff
  have hlen : (ws ++ [some b, some a]).length = ws.length + 2 := by simp
  rw [if_neg (by rw [hlen]; omega)]
  have hlast : (ws ++ [some b, some a]).getLast? = some (some a) := by
    rw [show ws ++ [some b, some a] = (ws ++ [some b]) ++ [some a] by simp]
    exact List.getLast?_concat _
  have hidx : (ws ++ [some b, some a]).length - 1 - 1 = ws.length := by
    rw [hlen]
    omega
  have hget : (ws ++ [some b, some a]).get? ws.length = some (some b) := by
    rw [List.get?_eq_getElem?, List.getElem?_append_right (le_refl ws.length)]
    simp
  rw [hidx, hlast, hget]
  rfl

theorem lagDiff_none_of_last_none (k : Nat) (vs : List (Option ℚ))
    (h : vs.getLast?.join = none) : lagDiff k vs = none := by
  unfold lagDiff
  by_cases hk : vs.length ≤ k
  · rw [if_pos hk]
  · rw [if_neg hk, h]

theorem lagDiff_none_of_lag_none (k : Nat) (vs : List (Option ℚ))
    (h : (vs.get? (vs.length - 1 - k)).join = none) : lagDiff k vs = none := by
  unfold lagDiff
  by_cases hk : vs.length ≤ k
  · rw [if_pos hk]
  · rw [if_neg hk, h]
    rcases vs.getLast?.join with _ | a <;> rfl

theorem rollMean_windowObs (vs : List (Option ℚ)) :
    rollMean 6 vs =
      if windowObs vs = [] then none
      else some ((windowObs vs).sum / ((windowObs vs).length : ℚ)) := by
  unfold rollMean windowObs
  rcases h : ((vs.drop (vs.length - 6)).filterMap id) with _ | ⟨x, xs⟩ <;> simp [h]

theorem dedupLast_filter (l : List Row) (k : Option Nat × Option Nat) :
    (dedupLast l).filter (fun r => keyOf r = k) =
      ((l.filter (fun r => keyOf r = k)).getLast?).toList := by
  induction l with
  | nil => rfl
  | cons r rs ih =>
    unfold dedupLast
    by_cases hany : rs.any (fun s => keyOf s = keyOf r) = true
    · rw [if_pos hany, ih]
      by_cases hk : keyOf r = k
      · have hne : rs.filter (fun s => decide (keyOf s = k)) ≠ [] := by
          rcases List.any_eq_true.mp hany with ⟨s, hs, hsk⟩
          have hmem : s ∈ rs.filter (fun s => decide (keyOf s = k)) := by
            refine List.mem_filter.mpr ⟨hs, ?_⟩
            simp only [decide_eq_true_eq]
            rw [of_decide_eq_true hsk, hk]
          intro hnil
          rw [hnil] at hmem
          cases hmem
        rcases List.exists_cons_of_ne_nil hne with ⟨x, xs, hx⟩
        rw [List.filter_cons_of_pos (by simpa using hk), hx, List.getLast?_cons_cons]
      · rw [List.filter_cons_of_neg (by simpa using hk)]
    · rw [if_neg hany]
      by_cases hk : keyOf r = k
      · have hfrs : rs.filter (fun s => decide (keyOf s = k)) = [] := by
          rw [List.filter_eq_nil_iff]
          intro s hs
          simp only [decide_eq_true_eq]
          intro hsk
          apply hany
          refine List.any_eq_true.mpr ⟨s, hs, ?_⟩
          simp only [decide_eq_true_eq]
          rw [hsk, hk]
      
        rw [List.filter_cons_of_pos (by simpa using hk), ih, hfrs,
          List.filter_cons_of_pos (by simpa using hk), hfrs]
        rfl
      · rw [List.filter_cons_of_neg (by simpa using hk), ih,
          List.filter_cons_of_neg (by simpa using hk)]

theorem augAt_pressure (l : List Row) (i : Nat) :
    (augAt l i).pressure_change =
      fillna0 (lagDiff 1 (groupHist Row.pressao_atm_estacao l i)) := rfl

theorem augAt_temp (l : List Row) (i : Nat) :
    (augAt l i).temp_change_3h =
      fillna0 (lagDiff 3 (groupHist Row.temperatura_ar l i)) := rfl

theorem augAt_humidity (l : List Row) (i : Nat) :
    (augAt l i).humidity_trend =
      fillna0 (rollMean 6 (groupHist Row.umidade_relativa l i)) := rfl

theorem foldl_upsert_apply (rows : List Row) (s : Store) (k : Nat × Nat) :
    (rows.foldl upsertRow s) k =
      ((rows.filter (fun r => keyN r = k)).getLast?).elim (s k) some := by
  induction rows generalizing s with
  | nil => rfl
  | cons r rs ih =>
    rw [List.foldl_cons, ih]
    by_cases hk : keyN r = k
    · rw [List.filter_cons_of_pos (by simpa using hk)]
      rcases hfr : rs.filter (fun r2 => decide (keyN r2 = k)) with _ | ⟨x, xs⟩
      · simp only [List.getLast?_nil, Option.elim, List.getLast?_singleton]
        unfold upsertRow
        rw [if_pos hk.symm]
      · rw [List.getLast?_cons_cons]
        rcases hx : (x :: xs).getLast? with _ | y
        · rw [List.getLast?_eq_none_iff] at hx
          cases hx
        · rfl
    · rw [List.filter_cons_of_neg (by simpa using hk)]
      have hb : upsertRow s r k = s k := by
        unfold upsertRow
        rw [if_neg (fun hc => hk hc.symm)]
      rw [hb]

theorem storeAfter_closed (conn : Bool) (s : Store) (rows : List Row) :
    storeAfter conn s rows =
      if (conn && !rows.isEmpty && !(rows.filter validKey).isEmpty) = true
      then (rows.filter validKey).foldl upsertRow s else s := by
  unfold storeAfter insertData execValues
  by_cases he : rows.isEmpty = true <;> by_cases hk : (rows.filter validKey).isEmpty = true <;>
    rcases conn with _ | _ <;> simp [he, hk]

/-! ### Claims -/

/-- C1 (counterexample): the sentinel literal "-9999" is NOT mapped to a
missing value by the numeric coercion of `etl_local.py`: it is absent from
the `na_values` list and parses as an ordinary number, so the parsed value
of a "-9999" cell is the number -9999, not missing. -/
theorem sentinel_cell_is_not_missing :
    coerceCell "-9999" = some (-9999) ∧ coerceCell "-9999" ≠ none := by
  have h : coerceCell "-9999" = some (mkRat (-9999) 1) := by decide
  have h2 : coerceCell "-9999" = some (-9999 : ℚ) := by
    rw [h, Rat.mkRat_eq_div]
    norm_num
  refine ⟨h2, ?_⟩
  rw [h2]
  exact fun hc => Option.noConfusion hc

/-- C1 (amended): for a raw cell of a measurement column, every recognized
NA literal (the empty string, " ", "null", "NaN", "NULL" and the pandas
defaults) coerces to missing, never to zero, and a decimal-comma cell such
as "23,5" coerces to the number 23.5; the literal "-9999", however, is not
treated as a sentinel: it coerces to the number -9999, not to missing. -/
theorem coercion_na_comma_sentinel :
    (∀ s, isNA s = true → coerceCell s = none)
    ∧ coerceCell "23,5" = some (47/2)
    ∧ coerceCell "-9999" = some (-9999) := by
  refine ⟨?_, ?_, ?_⟩
  · intro s h
    unfold coerceCell readCell
    rw [if_pos h]
    rfl
  · have h : coerceCell "23,5" = some (mkRat 47 2) := by decide
    rw [h, Rat.mkRat_eq_div]
    norm_num
  · have h : coerceCell "-9999" = some (mkRat (-9999) 1) := by decide
    rw [h, Rat.mkRat_eq_div]
    norm_num

/-- Witness for the amended C1 at the empty string. -/
theorem coercion_na_comma_sentinel_w :
    isNA "" = true ∧ coerceCell "" = none :=
  ⟨by decide, coercion_na_comma_sentinel.1 "" (by decide)⟩

/-- C2: every row that enters the Deduplicator's input (the concatenation
of the cleaned per-file frames) and every row handed to the database write
has a non-missing `data` and a non-missing `hora`; rows whose date or
time-of-day failed to parse were dropped before deduplication and never
reach the write. -/
theorem key_columns_nonnull_before_dedup_and_db (fs : List RawFile) (r : Row) :
    (r ∈ combineFiles fs → validKey r = true)
    ∧ (r ∈ dbInput fs → validKey r = true) := by
  constructor
  · intro hr
    unfold combineFiles at hr
    rcases List.mem_flatten.mp hr with ⟨rows, hrows, hrr⟩
    rcases List.mem_filterMap.mp hrows with ⟨f, hf, hpf⟩
    unfold processFile at hpf
    by_cases hacc : fileAccepted f.headers = true
    · rw [if_pos hacc] at hpf
      injection hpf with hpf
      subst hpf
      exact List.of_mem_filter hrr
    · rw [if_neg hacc] at hpf
      cases hpf
  · intro hr
    exact List.of_mem_filter hr

/-- Witness for C2 on two concrete files. -/
theorem key_columns_nonnull_before_dedup_and_db_w :
    (rowA ∈ combineFiles [fileFull, fileShort] ∧ validKey rowA = true)
    ∧ (rowC ∈ dbInput [fileFull, fileShort] ∧ validKey rowC = true) :=
  ⟨⟨by decide, (key_columns_nonnull_before_dedup_and_db [fileFull, fileShort] rowA).1 (by decide)⟩,
   ⟨by decide, (key_columns_nonnull_before_dedup_and_db [fileFull, fileShort] rowC).2 (by decide)⟩⟩

/-- C3: after `drop_duplicates(keep="last")`, the surviving rows of any
`(data, hora)` key are exactly the last row of the concatenated input
carrying that key (so each present key is carried by exactly one row), and
the resulting series is the deduplicated series rearranged into ascending
`(data, hora)` order. -/
theorem dedup_keeps_last_then_sorts (fs : List RawFile) (k : Option Nat × Option Nat) :
    ((dedupLast (combineFiles fs)).filter (fun r => keyOf r = k) =
      (((combineFiles fs).filter (fun r => keyOf r = k)).getLast?).toList)
    ∧ List.Sorted keyLeP (pipelineRows fs)
    ∧ (pipelineRows fs).Perm ((dedupLast (combineFiles fs)).filter validKey) := by
  refine ⟨dedupLast_filter _ _, ?_, ?_⟩
  · exact List.sorted_insertionSort keyLeP _
  · exact List.perm_insertionSort keyLeP _

/-- C4: on the sorted, deduplicated series the Feature Augmenter sets
`pressure_change` to exactly 0 on the first sample of a calendar date (no
earlier row shares its date), and on any later sample with an
immediately-previous same-date sample it sets the current station pressure
minus that previous station pressure — the difference never crosses a date
boundary, because only rows of the same `data` group enter it. -/
theorem pressure_change_first_zero_then_diff (l1 l2 l3 : List Row) (rj ri : Row) (a b : ℚ) :
    ((∀ r ∈ l1, ¬ r.data = ri.data) →
      ((augment (l1 ++ ri :: l3)).getD l1.length default).pressure_change = some 0)
    ∧ (rj.data = ri.data → (∀ r ∈ l2, ¬ r.data = ri.data) →
      ri.pressao_atm_estacao = some a → rj.pressao_atm_estacao = some b →
      ((augment (l1 ++ rj :: (l2 ++ ri :: l3))).getD (l1.length + 1 + l2.length)
          default).pressure_change = some (a - b)) := by
  constructor
  · intro h1
    rw [augment_getD _ _ (by simp), augAt_pressure, groupHist_first]
    have hf : l1.filter (fun r => decide (r.data = ri.data)) = [] := by
      rw [List.filter_eq_nil_iff]
      intro r hr
      simpa using h1 r hr
    rw [hf, List.map_nil, List.nil_append, lagDiff_of_short 1 _ (by simp)]
    rfl
  · intro hj hmid ha hb
    have hlen : l1.length + 1 + l2.length < (l1 ++ rj :: (l2 ++ ri :: l3)).length := by
      simp
      omega
    rw [augment_getD _ _ hlen, augAt_pressure, groupHist_mid _ _ _ _ _ _ hj hmid, ha, hb,
      lagDiff_one_last_two]
    rfl

/-- Witness for C4: a one-row date and a two-row date. -/
theorem pressure_change_first_zero_then_diff_w :
    ((augment ([] ++ rowA :: [])).getD (List.length ([] : List Row)) default).pressure_change
      = some 0
    ∧ ((augment ([] ++ rowA :: ([] ++ rowC :: []))).getD
        (List.length ([] : List Row) + 1 + List.length ([] : List Row)) default).pressure_change
      = some (994 - 1000) :=
  ⟨(pressure_change_first_zero_then_diff [] [] [] rowA rowA 0 0).1 (by simp),
   (pressure_change_first_zero_then_diff [] [] [] rowA rowC 994 1000).2
     (by decide) (by simp) (by decide) (by decide)⟩

/-- C5: on any series, a row's `humidity_trend` is exactly the trailing
rolling mean of relative humidity over the up-to-6 most recent samples of
its own calendar date (all available samples when the date has fewer), and
it is never null — in particular it equals the mean whenever the trailing
within-date window holds at least one non-null humidity sample. -/
theorem humidity_trend_rolling_mean (l1 l3 : List Row) (ri : Row) :
    (((augment (l1 ++ ri :: l3)).getD l1.length default).humidity_trend =
      some (if windowObs (humidityHist l1 ri) = [] then 0
            else (windowObs (humidityHist l1 ri)).sum / ((windowObs (humidityHist l1 ri)).length : ℚ)))
    ∧ (windowObs (humidityHist l1 ri) ≠ [] →
      ((augment (l1 ++ ri :: l3)).getD l1.length default).humidity_trend =
        some ((windowObs (humidityHist l1 ri)).sum / ((windowObs (humidityHist l1 ri)).length : ℚ)))
    ∧ ((augment (l1 ++ ri :: l3)).getD l1.length default).humidity_trend ≠ none := by
  have key : ((augment (l1 ++ ri :: l3)).getD l1.length default).humidity_trend =
      some (if windowObs (humidityHist l1 ri) = [] then 0
            else (windowObs (humidityHist l1 ri)).sum / ((windowObs (humidityHist l1 ri)).length : ℚ)) := by
    rw [augment_getD _ _ (by simp), augAt_humidity, groupHist_first]
    rw [show ((l1.filter (fun r => r.data = ri.data)).map Row.umidade_relativa)
          ++ [ri.umidade_relativa] = humidityHist l1 ri from rfl]
    rw [rollMean_windowObs]
    by_cases h : windowObs (humidityHist l1 ri) = []
    · rw [if_pos h, if_pos h]
      rfl
    · rw [if_neg h, if_neg h]
      rfl
  refine ⟨key, ?_, ?_⟩
  · intro h
    rw [key, if_neg h]
  · rw [key]
    exact fun hc => Option.noConfusion hc

/-- Witness for C5 at a one-row series with a present humidity value. -/
theorem humidity_trend_rolling_mean_w :
    windowObs (humidityHist [] rowA) ≠ []
    ∧ ((augment ([] ++ rowA :: [])).getD (List.length ([] : List Row)) default).humidity_trend =
      some ((windowObs (humidityHist [] rowA)).sum / ((windowObs (humidityHist [] rowA)).length : ℚ)) :=
  ⟨by decide, (humidity_trend_rolling_mean [] [] rowA).2.1 (by decide)⟩

/-- C6: the batched upsert of the Store Writer is idempotent — running
`insert_data` twice on the same input leaves the store in the same state
as running it once — and on key conflict the incoming row replaces the
stored one entirely, nulls included (last-write-wins). -/
theorem insert_data_idempotent (conn : Bool) (s : Store) (rows : List Row) (r : Row)
    (h : validKey r = true) :
    storeAfter conn (storeAfter conn s rows) rows = storeAfter conn s rows
    ∧ storeAfter true s [r] (keyN r) = some r := by
  constructor
  · simp only [storeAfter_closed]
    by_cases hc : (conn && !rows.isEmpty && !(rows.filter validKey).isEmpty) = true
    · simp only [if_pos hc]
      funext k
      simp only [foldl_upsert_apply]
      rcases ((rows.filter validKey).filter (fun r2 => keyN r2 = k)).getLast? with _ | r2 <;> rfl
    · simp only [if_neg hc]
  · rw [storeAfter_closed]
    simp [h, upsertRow, List.filter]

/-- Witness for C6 on a concrete store and series. -/
theorem insert_data_idempotent_w :
    validKey rowA = true
    ∧ storeAfter true (storeAfter true dbEmpty [rowA, rowC]) [rowA, rowC]
        = storeAfter true dbEmpty [rowA, rowC]
    ∧ storeAfter true dbEmpty [rowA] (keyN rowA) = some rowA :=
  ⟨by decide,
   (insert_data_idempotent true dbEmpty [rowA, rowC] rowA (by decide)).1,
   (insert_data_idempotent true dbEmpty [rowA] rowA (by decide)).2⟩

/-- C7 (counterexample): on a connectivity failure of the database call,
`insert_data` does not raise: the exception is caught, the transaction is
rolled back, and `False` is returned — the failure is swallowed, not
surfaced, contrary to the claim. -/
theorem insert_data_swallows_db_error :
    insertData false dbEmpty [rowA] = Except.ok (false, dbEmpty)
    ∧ insertData false dbEmpty [rowA] ≠ Except.error () := by
  have e : insertData false dbEmpty [rowA] = Except.ok (false, dbEmpty) := rfl
  refine ⟨e, ?_⟩
  rw [e]
  exact fun hc => Except.noConfusion hc

/-- C7 (amended): `insert_data` returns only a boolean success flag (the
row count is logged, not returned) and never raises: a failure of the
database call itself is caught, rolled back and reported as `False`;
connection/authorization failures surface (raise) only at `ETLDB`
construction — a missing `NEON_DB_URL` or a failed connect raises there. -/
theorem insert_data_error_signalling (conn : Bool) (s : Store) (rows : List Row) (u : String) :
    (∃ b t, insertData conn s rows = Except.ok (b, t))
    ∧ (conn = false → insertData conn s rows = Except.ok (false, s))
    ∧ etldbInit none conn = Except.error ()
    ∧ etldbInit (some u) false = Except.error () := by
  refine ⟨?_, ?_, rfl, rfl⟩
  · unfold insertData execValues
    by_cases he : rows.isEmpty = true
    · rw [if_pos he]
      exact ⟨false, s, rfl⟩
    · rw [if_neg he]
      by_cases hk : (rows.filter validKey).isEmpty = true
      · rw [if_pos hk]
        exact ⟨false, s, rfl⟩
      · rw [if_neg hk]
        rcases conn with _ | _
        · exact ⟨false, s, rfl⟩
        · exact ⟨true, (rows.filter validKey).foldl upsertRow s, rfl⟩
  · intro hc
    subst hc
    unfold insertData execValues
    by_cases he : rows.isEmpty = true
    · rw [if_pos he]
    · rw [if_neg he]
      by_cases hk : (rows.filter validKey).isEmpty = true
      · rw [if_pos hk]
      · rw [if_neg hk]
        rfl

/-- Witness for the amended C7 on a failed connection. -/
theorem insert_data_error_signalling_w :
    insertData false dbEmpty [rowA] = Except.ok (false, dbEmpty)
    ∧ etldbInit (some "postgres-url") false = Except.error () :=
  ⟨(insert_data_error_signalling false dbEmpty [rowA] "postgres-url").2.1 rfl,
   (insert_data_error_signalling false dbEmpty [rowA] "postgres-url").2.2.2⟩

/-- C8: a file whose columns, after header normalization and mapping,
contain neither `data` nor `hora` is rejected whole: its processing stops
with a diagnostic and it contributes no rows to the combined series. -/
theorem file_without_key_columns_rejected (f : RawFile) (fs1 fs2 : List RawFile)
    (hd : ¬ "data" ∈ canonicalColumns f.headers)
    (_hh : ¬ "hora" ∈ canonicalColumns f.headers) :
    processFile f = none
    ∧ combineFiles (fs1 ++ f :: fs2) = combineFiles (fs1 ++ fs2) := by
  have hd2 : ((availableCols (canonicalColumns f.headers)).contains "data") = false := by
    rcases hb : (availableCols (canonicalColumns f.headers)).contains "data" with _ | _
    · rfl
    · exfalso
      have hmem : "data" ∈ availableCols (canonicalColumns f.headers) :=
        List.mem_of_elem_eq_true hb
      have hpred := (List.mem_filter.mp hmem).2
      exact hd (List.mem_of_elem_eq_true hpred)
  have hacc : fileAccepted f.headers = false := by
    unfold fileAccepted
    rw [hd2]
    rfl
  have hpf : processFile f = none := by
    unfold processFile
    rw [hacc]
    rfl
  refine ⟨hpf, ?_⟩
  unfold combineFiles
  rw [List.filterMap_append, List.filterMap_append, List.filterMap_cons, hpf]

/-- Witness for C8 on a keyless concrete file. -/
theorem file_without_key_columns_rejected_w :
    (¬ "data" ∈ canonicalColumns fileNoKey.headers)
    ∧ processFile fileNoKey = none
    ∧ combineFiles ([fileFull] ++ fileNoKey :: []) = combineFiles ([fileFull] ++ []) :=
  ⟨by decide,
   (file_without_key_columns_rejected fileNoKey [fileFull] [] (by decide) (by decide)).1,
   (file_without_key_columns_rejected fileNoKey [fileFull] [] (by decide) (by decide)).2⟩

/-- C9: header normalization trims, lower-cases and replaces interior
spaces with underscores, then applies the fixed mapping table, so the raw
headers "Temperatura do Ar (°C)" and "temperatura_ar" both produce the
same canonical column name `temperatura_ar`. -/
theorem header_normalization_scenario :
    normalizeHeader "Temperatura do Ar (°C)" = "temperatura_do_ar_(°c)"
    ∧ canonicalName "Temperatura do Ar (°C)" = "temperatura_ar"
    ∧ canonicalName "temperatura_ar" = "temperatura_ar"
    ∧ canonicalColumns ["Data", "Hora", "Temperatura do Ar (°C)"]
        = canonicalColumns ["data", "hora", "temperatura_ar"] := by
  refine ⟨?_, ?_, ?_, ?_⟩ <;> decide

/-- C10: the three derived columns are never missing on any row of the
augmented series, and degrade to the literal 0 — not to a propagated
missing value — whenever the data they need is missing: the current or the
lagged measurement for the first/third differences, or every sample of the
trailing within-date humidity window. -/
theorem derived_features_never_missing (l : List Row) (i : Nat) (hi : i < l.length) :
    (((augment l).getD i default).pressure_change ≠ none
      ∧ ((augment l).getD i default).temp_change_3h ≠ none
      ∧ ((augment l).getD i default).humidity_trend ≠ none)
    ∧ ((groupHist Row.pressao_atm_estacao l i).getLast?.join = none →
        ((augment l).getD i default).pressure_change = some 0)
    ∧ (((groupHist Row.pressao_atm_estacao l i).get?
          ((groupHist Row.pressao_atm_estacao l i).length - 1 - 1)).join = none →
        ((augment l).getD i default).pressure_change = some 0)
    ∧ ((groupHist Row.temperatura_ar l i).getLast?.join = none →
        ((augment l).getD i default).temp_change_3h = some 0)
    ∧ (((groupHist Row.temperatura_ar l i).get?
          ((groupHist Row.temperatura_ar l i).length - 1 - 3)).join = none →
        ((augment l).getD i default).temp_change_3h = some 0)
    ∧ (windowObs (groupHist Row.umidade_relativa l i) = [] →
        ((augment l).getD i default).humidity_trend = some 0) := by
  rw [augment_getD _ _ hi]
  simp only [augAt_pressure, augAt_temp, augAt_humidity]
  refine ⟨⟨?_, ?_, ?_⟩, ?_, ?_, ?_, ?_, ?_⟩
  · exact fun hc => Option.noConfusion hc
  · exact fun hc => Option.noConfusion hc
  · exact fun hc => Option.noConfusion hc
  · intro h
    rw [lagDiff_none_of_last_none _ _ h]
    rfl
  · intro h
    rw [lagDiff_none_of_lag_none _ _ h]
    rfl
  · intro h
    rw [lagDiff_none_of_last_none _ _ h]
    rfl
  · intro h
    rw [lagDiff_none_of_lag_none _ _ h]
    rfl
  · intro h
    rw [rollMean_windowObs, if_pos h]
    rfl

/-- Witness for C10 at a row with every measurement missing. -/
theorem derived_features_never_missing_w :
    0 < [rowEmptyMeas].length
    ∧ ((augment [rowEmptyMeas]).getD 0 default).pressure_change = some 0
    ∧ ((augment [rowEmptyMeas]).getD 0 default).temp_change_3h = some 0
    ∧ ((augment [rowEmptyMeas]).getD 0 default).humidity_trend = some 0 :=
  ⟨by decide,
   (derived_features_never_missing [rowEmptyMeas] 0 (by decide)).2.1 (by decide),
   (derived_features_never_missing [rowEmptyMeas] 0 (by decide)).2.2.2.1 (by decide),
   (derived_features_never_missing [rowEmptyMeas] 0 (by decide)).2.2.2.2.2 (by decide)⟩
